import Mathlib

/-!
Shallow embedding of the QuickDesk backend (backend/server.js): the
relational data model (users, tickets, comments, votes, categories,
role-upgrade requests) and the Express request handlers, each modelled as a
pure function from a database state and request data to a response and a new
database state.  External libraries (bcrypt, jwt) are passed in as function
parameters; Prisma row ids generated by the database are passed in as `newId`
arguments; `Date.now` is passed in as `now`.
-/

namespace QuickDesk

/-- User roles (Prisma enum `Role`). -/
inductive Role where
  | END_USER
  | SUPPORT_AGENT
  | ADMIN
deriving DecidableEq, Repr

/-- Vote types (Prisma enum `VoteType`). -/
inductive VoteType where
  | UP
  | DOWN
deriving DecidableEq, Repr

/-- Ticket statuses (Prisma enum `TicketStatus`). -/
inductive TicketStatus where
  | OPEN
  | IN_PROGRESS
  | RESOLVED
  | CLOSED
deriving DecidableEq, Repr

/-- Ticket priorities (Prisma enum `Priority`). -/
inductive Priority where
  | LOW
  | MEDIUM
  | HIGH
  | URGENT
deriving DecidableEq, Repr

/-- Role-upgrade request statuses. -/
inductive ReqStatus where
  | PENDING
  | APPROVED
  | REJECTED
deriving DecidableEq, Repr

/-- A row of the `User` table.  `password` stores the bcrypt hash. -/
structure User where
  id : String
  name : String
  email : String
  password : String
  role : Role
  createdAt : Nat
deriving DecidableEq, Repr

/-- A row of the `Ticket` table. -/
structure Ticket where
  id : String
  title : String
  description : String
  status : TicketStatus
  priority : Priority
  categoryId : String
  createdBy : String
  votes : Int
  closedAt : Option Nat
  createdAt : Nat
  updatedAt : Nat
deriving DecidableEq, Repr

/-- A row of the `Vote` table: a per-user, per-ticket UP/DOWN record. -/
structure Vote where
  id : String
  userId : String
  ticketId : String
  type : VoteType
deriving DecidableEq, Repr

/-- A row of the `Comment` table. -/
structure Comment where
  id : String
  ticketId : String
  userId : String
  content : String
  createdAt : Nat
deriving DecidableEq, Repr

/-- A row of the `Category` table. -/
structure Category where
  id : String
  name : String
  description : String
  color : String
  createdBy : String
deriving DecidableEq, Repr

/-- A row of the `RoleUpgradeRequest` table. -/
structure RoleUpgradeRequest where
  id : String
  userId : String
  requestedRole : Role
  currentRole : Role
  reason : String
  status : ReqStatus
  processedBy : Option String
  processedAt : Option Nat
  createdAt : Nat
deriving DecidableEq, Repr

/-- The whole database state. -/
structure DB where
  users : List User
  tickets : List Ticket
  votes : List Vote
  comments : List Comment
  categories : List Category
  roleRequests : List RoleUpgradeRequest
deriving DecidableEq, Repr

/-- The authenticated requester, as selected by `authenticateToken`
(`select: id, email, name, role`). -/
structure PublicUser where
  id : String
  name : String
  email : String
  role : Role
deriving DecidableEq, Repr

/-- The projection applied by the `select: id, name, email, role` clauses of
the auth endpoints: the password hash is dropped. -/
def toPublic (u : User) : PublicUser :=
  ⟨u.id, u.name, u.email, u.role⟩

/-- An HTTP response: either a success payload or an error with a status code
and message (`res.status(code).json(error)`). -/
inductive HResult (α : Type) where
  | ok (status : Nat) (payload : α)
  | err (status : Nat) (msg : String)
deriving DecidableEq, Repr

/-- `requireRole(roles)` middleware: `roles.includes(req.user.role)`. -/
def requireRole (roles : List Role) (u : PublicUser) : Bool :=
  decide (u.role ∈ roles)

/-- `prisma.user.findUnique({ where: { id } })`. -/
def findUser (db : DB) (uid : String) : Option User :=
  db.users.find? (fun u => decide (u.id = uid))

/-- `prisma.user.findUnique({ where: { email } })`. -/
def findUserByEmail (db : DB) (email : String) : Option User :=
  db.users.find? (fun u => decide (u.email = email))

/-- `prisma.ticket.findUnique({ where: { id } })`. -/
def findTicket (db : DB) (tid : String) : Option Ticket :=
  db.tickets.find? (fun t => decide (t.id = tid))

/-- `prisma.vote.findUnique({ where: { userId_ticketId } })`. -/
def findVote (db : DB) (uid tid : String) : Option Vote :=
  db.votes.find? (fun v => decide (v.userId = uid ∧ v.ticketId = tid))

/-- `prisma.roleUpgradeRequest.findUnique({ where: { id } })`. -/
def findRoleRequest (db : DB) (rid : String) : Option RoleUpgradeRequest :=
  db.roleRequests.find? (fun r => decide (r.id = rid))

/-- `prisma.vote.count({ where: { ticketId, type: UP } })`. -/
def upCount (db : DB) (tid : String) : Nat :=
  (db.votes.filter (fun v => decide (v.ticketId = tid ∧ v.type = VoteType.UP))).length

/-- `prisma.vote.count({ where: { ticketId, type: DOWN } })`. -/
def downCount (db : DB) (tid : String) : Nat :=
  (db.votes.filter (fun v => decide (v.ticketId = tid ∧ v.type = VoteType.DOWN))).length

/-- `prisma.comment.count` on a ticket (the `_count.comments` include). -/
def commentCount (db : DB) (tid : String) : Nat :=
  (db.comments.filter (fun c => decide (c.ticketId = tid))).length

/-- All vote rows of one user on one ticket. -/
def votesFor (db : DB) (uid tid : String) : List Vote :=
  db.votes.filter (fun v => decide (v.userId = uid ∧ v.ticketId = tid))

/-- The net score of a ticket: UP votes minus DOWN votes. -/
def netVotes (db : DB) (tid : String) : Int :=
  (upCount db tid : Int) - (downCount db tid : Int)

/-- The first database write of `POST /api/tickets/:id/vote`: delete the
existing vote when the type matches, update its type when it differs, create
a fresh vote row otherwise.  This statement commits on its own; the handler
opens no transaction. -/
def applyVoteWrite (db : DB) (uid tid newId : String) (t : VoteType) : DB :=
  match findVote db uid tid with
  | some v =>
      if v.type = t then
        { db with votes := db.votes.filter (fun w => !decide (w.id = v.id)) }
      else
        { db with votes :=
            db.votes.map (fun w => if w.id = v.id then { w with type := t } else w) }
  | none =>
      { db with votes := db.votes ++ [⟨newId, uid, tid, t⟩] }

/-- The second database write of `POST /api/tickets/:id/vote`: recount UP and
DOWN votes and store the difference in the ticket row. -/
def applyTallyWrite (db : DB) (tid : String) : DB :=
  { db with tickets :=
      db.tickets.map (fun tk =>
        if tk.id = tid then { tk with votes := netVotes db tid } else tk) }

/-- Response body of the vote endpoint: `{ success, votes }`. -/
structure VoteResp where
  success : Bool
  votes : Int
deriving DecidableEq, Repr

/-- `POST /api/tickets/:id/vote`.  When the ticket row is missing the vote
write fails on its foreign key and the catch block answers 500 with the
database untouched; otherwise both writes run and the handler answers with
the recounted net score. -/
def voteHandler (db : DB) (u : PublicUser) (tid newId : String) (t : VoteType) :
    HResult VoteResp × DB :=
  if (findTicket db tid).isSome then
    let db1 := applyVoteWrite db u.id tid newId t
    (HResult.ok 200 ⟨true, netVotes db1 tid⟩, applyTallyWrite db1 tid)
  else
    (HResult.err 500 "Failed to vote", db)

/-- The sequence of committed database states produced by the vote handler,
one per write statement: the handler wraps its writes in no transaction, so
each of these states is durable if a later statement fails. -/
def voteWriteStates (db : DB) (uid tid newId : String) (t : VoteType) : List DB :=
  let db1 := applyVoteWrite db uid tid newId t
  [db1, applyTallyWrite db1 tid]

/-- Response body of `POST /api/auth/register` and `POST /api/auth/login`:
the projected user plus a signed JWT. -/
structure AuthResp where
  user : PublicUser
  token : String
deriving DecidableEq, Repr

/-- Request body of `POST /api/auth/register`; `role` is `none` when the
client sends no `role` field, in which case the destructuring default
`role = END_USER` applies. -/
structure RegisterInput where
  name : String
  email : String
  password : String
  role : Option Role
deriving DecidableEq, Repr

/-- `POST /api/auth/register`.  `hashFn` models `bcrypt.hash`, `signFn`
models `jwt.sign` on the fresh user id.  An empty string models a missing or
falsy body field. -/
def registerHandler (db : DB) (inp : RegisterInput) (hashFn signFn : String → String)
    (newId : String) (now : Nat) : HResult AuthResp × DB :=
  if inp.name = "" ∨ inp.email = "" ∨ inp.password = "" then
    (HResult.err 400 "All fields are required", db)
  else if (findUserByEmail db inp.email).isSome then
    (HResult.err 400 "User already exists", db)
  else
    let u : User :=
      ⟨newId, inp.name, inp.email, hashFn inp.password, inp.role.getD Role.END_USER, now⟩
    (HResult.ok 201 ⟨toPublic u, signFn newId⟩, { db with users := db.users ++ [u] })

/-- `POST /api/auth/login`.  `compareFn` models `bcrypt.compare`. -/
def loginHandler (db : DB) (email password : String)
    (compareFn : String → String → Bool) (signFn : String → String) :
    HResult AuthResp × DB :=
  match findUserByEmail db email with
  | none => (HResult.err 400 "Invalid credentials", db)
  | some u =>
      if compareFn password u.password then
        (HResult.ok 200 ⟨⟨u.id, u.name, u.email, u.role⟩, signFn u.id⟩, db)
      else
        (HResult.err 400 "Invalid credentials", db)

/-- `GET /api/auth/me`: returns the requester as selected by
`authenticateToken` (403 when the token's user row is gone). -/
def meHandler (db : DB) (uid : String) : HResult PublicUser × DB :=
  match findUser db uid with
  | none => (HResult.err 403 "Invalid token", db)
  | some u => (HResult.ok 200 (toPublic u), db)

/-- Request body of `PUT /api/auth/profile`; empty strings model missing or
falsy fields. -/
structure ProfileInput where
  name : String
  email : String
  currentPassword : String
  newPassword : String
deriving DecidableEq, Repr

/-- `PUT /api/auth/profile`.  The update row is looked up only on the
password-change path, exactly as in the handler; a missing user row makes
`prisma.user.update` throw, answered 500 by the catch block. -/
def updateProfile (db : DB) (uid : String) (inp : ProfileInput)
    (compareFn : String → String → Bool) (hashFn : String → String) :
    HResult PublicUser × DB :=
  if inp.name = "" ∨ inp.email = "" then
    (HResult.err 400 "Name and email are required", db)
  else if (db.users.find? (fun u => decide (u.email = inp.email ∧ ¬u.id = uid))).isSome then
    (HResult.err 400 "Email already taken", db)
  else if inp.newPassword ≠ "" then
    if inp.currentPassword = "" then
      (HResult.err 400 "Current password required to change password", db)
    else
      match findUser db uid with
      | none => (HResult.err 500 "Failed to update profile", db)
      | some u =>
          if compareFn inp.currentPassword u.password then
            let g := fun w : User =>
              if w.id = uid then
                { w with name := inp.name, email := inp.email,
                         password := hashFn inp.newPassword }
              else w
            (HResult.ok 200 (toPublic (g u)), { db with users := db.users.map g })
          else
            (HResult.err 400 "Current password is incorrect", db)
  else
    match findUser db uid with
    | none => (HResult.err 500 "Failed to update profile", db)
    | some u =>
        let g := fun w : User =>
          if w.id = uid then { w with name := inp.name, email := inp.email } else w
        (HResult.ok 200 (toPublic (g u)), { db with users := db.users.map g })

/-- Request body of `POST /api/categories`. -/
structure CategoryInput where
  name : String
  description : String
  color : String
deriving DecidableEq, Repr

/-- `POST /api/categories` (behind `requireRole([ADMIN])`). -/
def createCategory (db : DB) (u : PublicUser) (inp : CategoryInput) (newId : String) :
    HResult Category × DB :=
  if requireRole [Role.ADMIN] u then
    let c : Category := ⟨newId, inp.name, inp.description, inp.color, u.id⟩
    (HResult.ok 201 c, { db with categories := db.categories ++ [c] })
  else
    (HResult.err 403 "Insufficient permissions", db)

/-- Request body of `POST /api/tickets`; `priority` defaults to MEDIUM. -/
structure TicketInput where
  title : String
  description : String
  categoryId : String
  priority : Option Priority
deriving DecidableEq, Repr

/-- `POST /api/tickets`. -/
def createTicket (db : DB) (u : PublicUser) (inp : TicketInput) (newId : String)
    (now : Nat) : HResult Ticket × DB :=
  let t : Ticket :=
    ⟨newId, inp.title, inp.description, TicketStatus.OPEN,
     inp.priority.getD Priority.MEDIUM, inp.categoryId, u.id, 0, none, now, now⟩
  (HResult.ok 201 t, { db with tickets := db.tickets ++ [t] })

/-- `POST /api/tickets/:id/comments`; a missing ticket makes the insert fail
on its foreign key, answered 500 by the catch block. -/
def createComment (db : DB) (u : PublicUser) (tid content newId : String) (now : Nat) :
    HResult Comment × DB :=
  if (findTicket db tid).isSome then
    let c : Comment := ⟨newId, tid, u.id, content, now⟩
    (HResult.ok 201 c, { db with comments := db.comments ++ [c] })
  else
    (HResult.err 500 "Failed to add comment", db)

/-- `GET /api/tickets/:id`: end users may only read their own tickets. -/
def getTicket (db : DB) (u : PublicUser) (tid : String) : HResult Ticket × DB :=
  match findTicket db tid with
  | none => (HResult.err 404 "Ticket not found", db)
  | some tk =>
      if u.role = Role.END_USER ∧ ¬tk.createdBy = u.id then
        (HResult.err 403 "Access denied", db)
      else
        (HResult.ok 200 tk, db)

/-- The `validStatuses.includes(status)` check of the status endpoint, as a
parser from the raw body string to the status enum. -/
def parseStatus : String → Option TicketStatus
  | "OPEN" => some TicketStatus.OPEN
  | "IN_PROGRESS" => some TicketStatus.IN_PROGRESS
  | "RESOLVED" => some TicketStatus.RESOLVED
  | "CLOSED" => some TicketStatus.CLOSED
  | _ => none

/-- `PUT /api/tickets/:id/status`: validate the status string, look up the
ticket, check `canChangeStatus`, then update the row, stamping `closedAt`
exactly when the new status is CLOSED. -/
def updateTicketStatus (db : DB) (u : PublicUser) (tid statusStr : String) (now : Nat) :
    HResult Ticket × DB :=
  match parseStatus statusStr with
  | none => (HResult.err 400 "Invalid status", db)
  | some s =>
      match findTicket db tid with
      | none => (HResult.err 404 "Ticket not found", db)
      | some tk =>
          if u.role = Role.ADMIN ∨ u.role = Role.SUPPORT_AGENT ∨
              (u.id = tk.createdBy ∧ s = TicketStatus.CLOSED ∧ 0 < commentCount db tid) then
            let upd := fun t : Ticket =>
              if t.id = tid then
                { t with status := s,
                         closedAt := if s = TicketStatus.CLOSED then some now else t.closedAt }
              else t
            (HResult.ok 200 (upd tk), { db with tickets := db.tickets.map upd })
          else
            (HResult.err 403 "You can only close your own tickets after receiving responses", db)

/-- Sort fields accepted by the ticket list (the `orderBy: [sortBy]` object;
`createdAt` is the default). -/
inductive SortField where
  | createdAt
  | updatedAt
  | votes
deriving DecidableEq, Repr

/-- Comparison for one sort field. -/
def sortFieldLe : SortField → Ticket → Ticket → Bool
  | SortField.createdAt, a, b => decide (a.createdAt ≤ b.createdAt)
  | SortField.updatedAt, a, b => decide (a.updatedAt ≤ b.updatedAt)
  | SortField.votes, a, b => decide (a.votes ≤ b.votes)

/-- Comparison for a sort field and direction (`sortOrder`). -/
def ticketLe (f : SortField) (desc : Bool) (a b : Ticket) : Bool :=
  if desc then sortFieldLe f b a else sortFieldLe f a b

/-- Insertion into a sorted list. -/
def insertLe {α : Type} (le : α → α → Bool) (a : α) : List α → List α
  | [] => [a]
  | b :: l => if le a b then a :: b :: l else b :: insertLe le a l

/-- Insertion sort, modelling the `orderBy` clause. -/
def sortLe {α : Type} (le : α → α → Bool) : List α → List α
  | [] => []
  | a :: l => insertLe le a (sortLe le l)

/-- Case-insensitive substring test (`contains` with `mode: insensitive`). -/
def containsCI (hay pat : String) : Bool :=
  decide (pat.toLower.data <:+: hay.toLower.data)

/-- Query parameters of `GET /api/tickets`; `none` models an absent (falsy)
parameter. -/
structure TicketQuery where
  status : Option TicketStatus
  category : Option String
  search : Option String
  page : Nat
  limit : Nat
  sortBy : SortField
  sortDesc : Bool
deriving DecidableEq, Repr

/-- The `where` object built by `GET /api/tickets`: end users see only their
own tickets; status, category and search filters apply when present. -/
def ticketMatches (u : PublicUser) (q : TicketQuery) (t : Ticket) : Bool :=
  (decide (¬u.role = Role.END_USER) || decide (t.createdBy = u.id)) &&
  (match q.status with
   | none => true
   | some s => decide (t.status = s)) &&
  (match q.category with
   | none => true
   | some c => decide (t.categoryId = c)) &&
  (match q.search with
   | none => true
   | some s => containsCI t.title s || containsCI t.description s)

/-- One element of the ticket list: the row, its comment count and the
requester's own vote (`userVote`). -/
structure TicketListItem where
  ticket : Ticket
  commentTotal : Nat
  userVote : Option VoteType
deriving DecidableEq, Repr

/-- The `pagination` object of the ticket list response. -/
structure PageInfo where
  page : Nat
  limit : Nat
  total : Nat
  pages : Nat
deriving DecidableEq, Repr

/-- Response body of `GET /api/tickets`. -/
structure TicketList where
  tickets : List TicketListItem
  pagination : PageInfo
deriving DecidableEq, Repr

/-- `GET /api/tickets`: filter, sort, paginate (`skip`/`take`), then attach
comment counts and the requester's vote. -/
def listTickets (db : DB) (u : PublicUser) (q : TicketQuery) : HResult TicketList × DB :=
  let filtered := db.tickets.filter (ticketMatches u q)
  let sorted := sortLe (ticketLe q.sortBy q.sortDesc) filtered
  let pageItems := (sorted.drop ((q.page - 1) * q.limit)).take q.limit
  let items := pageItems.map (fun t =>
    ⟨t, commentCount db t.id, (findVote db u.id t.id).map Vote.type⟩)
  let total := filtered.length
  (HResult.ok 200 ⟨items, ⟨q.page, q.limit, total, (total + q.limit - 1) / q.limit⟩⟩, db)

/-- `POST /api/role-requests`: validate the requested role, refuse a second
pending request, then insert a PENDING request recording the current role. -/
def createRoleRequest (db : DB) (u : PublicUser) (requestedRole : Option Role)
    (reason : String) (newId : String) (now : Nat) :
    HResult RoleUpgradeRequest × DB :=
  match requestedRole with
  | none => (HResult.err 400 "Invalid requested role", db)
  | some rr =>
      if ¬(rr = Role.SUPPORT_AGENT ∨ rr = Role.ADMIN) then
        (HResult.err 400 "Invalid requested role", db)
      else if (db.roleRequests.find? (fun r =>
          decide (r.userId = u.id ∧ r.status = ReqStatus.PENDING))).isSome then
        (HResult.err 400 "You already have a pending upgrade request", db)
      else
        let req : RoleUpgradeRequest :=
          ⟨newId, u.id, rr, u.role,
           (if reason = "" then "User requested role upgrade" else reason),
           ReqStatus.PENDING, none, none, now⟩
        (HResult.ok 201 req, { db with roleRequests := db.roleRequests ++ [req] })

/-- `PUT /api/role-requests/:id` (behind `requireRole([ADMIN])`): mark the
PENDING request processed and, on approval, set the user's role to the
requested role. -/
def processRoleRequest (db : DB) (u : PublicUser) (rid statusStr : String) (now : Nat) :
    HResult RoleUpgradeRequest × DB :=
  if requireRole [Role.ADMIN] u then
    if ¬(statusStr = "APPROVED" ∨ statusStr = "REJECTED") then
      (HResult.err 400 "Invalid status", db)
    else
      match findRoleRequest db rid with
      | none => (HResult.err 404 "Request not found", db)
      | some req =>
          if ¬req.status = ReqStatus.PENDING then
            (HResult.err 400 "Request already processed", db)
          else
            let newStatus :=
              if statusStr = "APPROVED" then ReqStatus.APPROVED else ReqStatus.REJECTED
            let updReq := fun r : RoleUpgradeRequest =>
              if r.id = rid then
                { r with status := newStatus, processedAt := some now,
                         processedBy := some u.id }
              else r
            let db1 := { db with roleRequests := db.roleRequests.map updReq }
            let db2 :=
              if statusStr = "APPROVED" then
                { db1 with users := db1.users.map (fun us =>
                    if us.id = req.userId then { us with role := req.requestedRole } else us) }
              else db1
            (HResult.ok 200 (updReq req), db2)
  else
    (HResult.err 403 "Insufficient permissions", db)

/-- Response body of `GET /api/admin/analytics`. -/
structure Analytics where
  totalTickets : Nat
  openTickets : Nat
  resolvedTickets : Nat
  totalUsers : Nat
  pendingRequests : Nat
  activeAgents : Nat
  ticketsByCategory : List (Category × Nat)
deriving DecidableEq, Repr

/-- `GET /api/admin/analytics` (behind `requireRole([ADMIN])`): read-only
counts. -/
def getAnalytics (db : DB) (u : PublicUser) : HResult Analytics × DB :=
  if requireRole [Role.ADMIN] u then
    (HResult.ok 200
      ⟨db.tickets.length,
       (db.tickets.filter (fun t => decide (t.status = TicketStatus.OPEN))).length,
       (db.tickets.filter (fun t => decide (t.status = TicketStatus.RESOLVED))).length,
       db.users.length,
       (db.roleRequests.filter (fun r => decide (r.status = ReqStatus.PENDING))).length,
       (db.users.filter (fun us => decide (us.role = Role.SUPPORT_AGENT))).length,
       db.categories.map (fun c =>
         (c, (db.tickets.filter (fun t => decide (t.categoryId = c.id))).length))⟩, db)
  else
    (HResult.err 403 "Insufficient permissions", db)

/-- One row of the `GET /api/admin/users` response. -/
structure AdminUserRow where
  id : String
  name : String
  email : String
  role : Role
  createdAt : Nat
  ticketTotal : Nat
deriving DecidableEq, Repr

/-- `GET /api/admin/users` (behind `requireRole([ADMIN])`): all users, newest
first, with their ticket counts. -/
def getAdminUsers (db : DB) (u : PublicUser) : HResult (List AdminUserRow) × DB :=
  if requireRole [Role.ADMIN] u then
    (HResult.ok 200
      ((sortLe (fun a b : User => decide (b.createdAt ≤ a.createdAt)) db.users).map
        (fun us =>
          ⟨us.id, us.name, us.email, us.role, us.createdAt,
           (db.tickets.filter (fun t => decide (t.createdBy = us.id))).length⟩)), db)
  else
    (HResult.err 403 "Insufficient permissions", db)

/-! ### Sample data used by the witnesses -/

/-- An empty database. -/
def emptyDB : DB := ⟨[], [], [], [], [], []⟩

def sampleUserRow : User :=
  ⟨"u1", "Alice", "alice@example.com", "hash1", Role.END_USER, 1⟩

def sampleAgentRow : User :=
  ⟨"u2", "Bob", "bob@example.com", "hash2", Role.SUPPORT_AGENT, 2⟩

def sampleAdminRow : User :=
  ⟨"u3", "Carol", "carol@example.com", "hash3", Role.ADMIN, 3⟩

def sampleTicket : Ticket :=
  ⟨"t1", "Printer down", "The office printer fails", TicketStatus.OPEN,
   Priority.MEDIUM, "c1", "u1", 0, none, 5, 5⟩

def sampleDB : DB :=
  ⟨[sampleUserRow, sampleAgentRow, sampleAdminRow], [sampleTicket], [], [], [], []⟩

def samplePU : PublicUser := ⟨"u1", "Alice", "alice@example.com", Role.END_USER⟩

def agentPU : PublicUser := ⟨"u2", "Bob", "bob@example.com", Role.SUPPORT_AGENT⟩

def adminPU : PublicUser := ⟨"u3", "Carol", "carol@example.com", Role.ADMIN⟩

/-- A database in which Alice already has an UP vote on the sample ticket and
the stored tally is 1. -/
def voteDB : DB :=
  ⟨[sampleUserRow], [{ sampleTicket with votes := 1 }],
   [⟨"v1", "u1", "t1", VoteType.UP⟩], [], [], []⟩

/-! ### Helper lemmas -/

theorem users_applyVoteWrite (db : DB) (uid tid newId : String) (t : VoteType) :
    (applyVoteWrite db uid tid newId t).users = db.users := by
  unfold applyVoteWrite
  cases findVote db uid tid with
  | none => rfl
  | some v => by_cases h : v.type = t <;> simp [h]

theorem votes_applyTallyWrite (db : DB) (tid : String) :
    (applyTallyWrite db tid).votes = db.votes := rfl

theorem netVotes_applyTallyWrite (db : DB) (tid tid2 : String) :
    netVotes (applyTallyWrite db tid) tid2 = netVotes db tid2 := rfl

/-! ### C1 -/

/-- C1: after any successful POST /api/tickets/:id/vote request, the ticket's
stored votes field and the votes value in the response both equal the number
of UP votes minus the number of DOWN votes on that ticket, over the resulting
database state. -/
theorem C1_vote_tally_net (db : DB) (u : PublicUser) (tid newId : String) (t : VoteType)
    (r : VoteResp) (db' : DB)
    (h : voteHandler db u tid newId t = (HResult.ok 200 r, db')) :
    r.votes = netVotes db' tid ∧
    ∀ tk ∈ db'.tickets, tk.id = tid → tk.votes = netVotes db' tid := by
  unfold voteHandler at h
  by_cases hex : (findTicket db tid).isSome
  · simp only [if_pos hex, Prod.mk.injEq, HResult.ok.injEq] at h
    obtain ⟨⟨-, hr⟩, hdb⟩ := h
    subst hdb
    rw [netVotes_applyTallyWrite]
    constructor
    · rw [← hr]
    · intro tk htk hid
      simp only [applyTallyWrite] at htk
      rcases List.mem_map.1 htk with ⟨t0, ht0, hft⟩
      by_cases h0 : t0.id = tid
      · simp only [if_pos h0] at hft
        rw [← hft]
      · simp only [if_neg h0] at hft
        subst hft
        exact absurd hid h0
  · simp [if_neg hex] at h

/-- Witness for C1 on a concrete database: Alice upvotes her ticket. -/
theorem C1_vote_tally_net_witness :
    (⟨true, 1⟩ : VoteResp).votes =
        netVotes (voteHandler sampleDB samplePU "t1" "v9" VoteType.UP).2 "t1" ∧
    ∀ tk ∈ (voteHandler sampleDB samplePU "t1" "v9" VoteType.UP).2.tickets,
      tk.id = "t1" →
      tk.votes = netVotes (voteHandler sampleDB samplePU "t1" "v9" VoteType.UP).2 "t1" :=
  C1_vote_tally_net sampleDB samplePU "t1" "v9" VoteType.UP ⟨true, 1⟩
    (voteHandler sampleDB samplePU "t1" "v9" VoteType.UP).2 (by decide)

/-! ### C2 -/

/-- The committed database state after the first write statement of the vote
handler when Alice repeats her UP vote on the sample ticket: the vote row is
deleted, the stored tally is still 1. -/
def votePartialState : DB := applyVoteWrite voteDB "u1" "t1" "v2" VoteType.UP

/-- C2 counterexample: the vote handler issues its two writes as separate
statements with no surrounding transaction, so the state after the first
write alone is a committed state; on a concrete database it has the vote
records changed but the ticket tally stale, and it is neither the initial
state nor the all-writes-applied final state.  So endpoint operations are not
single transactions in which either all writes take effect or none. -/
theorem C2_counterexample :
    votePartialState ∈ voteWriteStates voteDB "u1" "t1" "v2" VoteType.UP ∧
    ¬votePartialState.votes = voteDB.votes ∧
    (∃ tk ∈ votePartialState.tickets,
       tk.id = "t1" ∧ ¬tk.votes = netVotes votePartialState "t1") ∧
    ¬votePartialState = voteDB ∧
    ¬votePartialState = (voteHandler voteDB samplePU "t1" "v2" VoteType.UP).2 := by
  decide

/-- C2 amended: the vote handler issues its database writes as separate,
individually committed statements rather than one transaction, so a failure
between the vote-record write and the ticket update leaves the vote records
changed but the tally stale; a request that runs to completion applies both
writes in order, and the completed state has a consistent tally. -/
theorem C2_writes_commit_separately (db : DB) (u : PublicUser) (tid newId : String)
    (t : VoteType) (h : (findTicket db tid).isSome) :
    voteWriteStates db u.id tid newId t =
      [applyVoteWrite db u.id tid newId t,
       applyTallyWrite (applyVoteWrite db u.id tid newId t) tid] ∧
    (voteHandler db u tid newId t).2 =
      applyTallyWrite (applyVoteWrite db u.id tid newId t) tid ∧
    ∀ tk ∈ (voteHandler db u tid newId t).2.tickets, tk.id = tid →
      tk.votes = netVotes (voteHandler db u tid newId t).2 tid := by
  refine ⟨rfl, ?_, ?_⟩
  · unfold voteHandler
    rw [if_pos h]
  · intro tk htk hid
    unfold voteHandler at htk ⊢
    rw [if_pos h] at htk ⊢
    rw [netVotes_applyTallyWrite]
    simp only [applyTallyWrite] at htk
    rcases List.mem_map.1 htk with ⟨t0, ht0, hft⟩
    by_cases h0 : t0.id = tid
    · simp only [if_pos h0] at hft
      rw [← hft]
    · simp only [if_neg h0] at hft
      subst hft
      exact absurd hid h0

/-- Witness for the amended C2 on a concrete database. -/
theorem C2_writes_commit_separately_witness :
    voteWriteStates voteDB "u1" "t1" "v2" VoteType.UP =
      [applyVoteWrite voteDB "u1" "t1" "v2" VoteType.UP,
       applyTallyWrite (applyVoteWrite voteDB "u1" "t1" "v2" VoteType.UP) "t1"] ∧
    (voteHandler voteDB samplePU "t1" "v2" VoteType.UP).2 =
      applyTallyWrite (applyVoteWrite voteDB "u1" "t1" "v2" VoteType.UP) "t1" ∧
    ∀ tk ∈ (voteHandler voteDB samplePU "t1" "v2" VoteType.UP).2.tickets, tk.id = "t1" →
      tk.votes = netVotes (voteHandler voteDB samplePU "t1" "v2" VoteType.UP).2 "t1" :=
  C2_writes_commit_separately voteDB samplePU "t1" "v2" VoteType.UP (by decide)

/-! ### C3 -/

/-- The data of one vote request. -/
structure VoteOp where
  user : PublicUser
  ticketId : String
  newId : String
  type : VoteType
deriving DecidableEq, Repr

/-- The database state left by one vote request. -/
def applyVoteOp (db : DB) (op : VoteOp) : DB :=
  (voteHandler db op.user op.ticketId op.newId op.type).2

/-- The database state left by a sequence of vote requests. -/
def applyVoteOps (db : DB) (ops : List VoteOp) : DB :=
  ops.foldl applyVoteOp db

/-- The per-user, per-ticket uniqueness invariant: no two vote rows share
their (userId, ticketId) pair. -/
def VoteInv (db : DB) : Prop :=
  db.votes.Pairwise (fun v w => ¬(v.userId = w.userId ∧ v.ticketId = w.ticketId))

instance (db : DB) : Decidable (VoteInv db) := by
  unfold VoteInv
  infer_instance

theorem pair_fields_of_mapVoteType (vid : String) (t : VoteType) (w : Vote) :
    ((if w.id = vid then { w with type := t } else w).userId = w.userId ∧
     (if w.id = vid then { w with type := t } else w).ticketId = w.ticketId) := by
  by_cases h : w.id = vid <;> simp [h]

theorem applyVoteWrite_some_del (db : DB) (uid tid newId : String) (t : VoteType) (v : Vote)
    (hfv : findVote db uid tid = some v) (ht : v.type = t) :
    applyVoteWrite db uid tid newId t =
      { db with votes := db.votes.filter (fun w => !decide (w.id = v.id)) } := by
  have h : applyVoteWrite db uid tid newId t =
      if v.type = t then
        { db with votes := db.votes.filter (fun w => !decide (w.id = v.id)) }
      else
        { db with votes :=
            db.votes.map (fun w => if w.id = v.id then { w with type := t } else w) } := by
    unfold applyVoteWrite
    rw [hfv]
  rw [h, if_pos ht]

theorem applyVoteWrite_some_upd (db : DB) (uid tid newId : String) (t : VoteType) (v : Vote)
    (hfv : findVote db uid tid = some v) (ht : ¬v.type = t) :
    applyVoteWrite db uid tid newId t =
      { db with votes :=
          db.votes.map (fun w => if w.id = v.id then { w with type := t } else w) } := by
  have h : applyVoteWrite db uid tid newId t =
      if v.type = t then
        { db with votes := db.votes.filter (fun w => !decide (w.id = v.id)) }
      else
        { db with votes :=
            db.votes.map (fun w => if w.id = v.id then { w with type := t } else w) } := by
    unfold applyVoteWrite
    rw [hfv]
  rw [h, if_neg ht]

theorem applyVoteWrite_none (db : DB) (uid tid newId : String) (t : VoteType)
    (hfv : findVote db uid tid = none) :
    applyVoteWrite db uid tid newId t =
      { db with votes := db.votes ++ [⟨newId, uid, tid, t⟩] } := by
  unfold applyVoteWrite
  rw [hfv]

theorem voteInv_applyVoteWrite (db : DB) (uid tid newId : String) (t : VoteType)
    (hinv : VoteInv db) : VoteInv (applyVoteWrite db uid tid newId t) := by
  unfold VoteInv applyVoteWrite
  cases hfv : findVote db uid tid with
  | some v =>
      by_cases ht : v.type = t
      · simp only [if_pos ht]
        exact List.Pairwise.filter _ hinv
      · simp only [if_neg ht]
        refine List.Pairwise.map _ ?_ hinv
        intro a b hab hcon
        exact hab ⟨((pair_fields_of_mapVoteType v.id t a).1.symm.trans hcon.1).trans
            (pair_fields_of_mapVoteType v.id t b).1,
          ((pair_fields_of_mapVoteType v.id t a).2.symm.trans hcon.2).trans
            (pair_fields_of_mapVoteType v.id t b).2⟩
  | none =>
      rw [List.pairwise_append]
      refine ⟨hinv, List.pairwise_singleton _ _, ?_⟩
      intro a ha b hb
      have hnone := List.find?_eq_none.1 hfv a ha
      simp only [decide_eq_true_eq] at hnone
      simp only [List.mem_singleton] at hb
      subst hb
      exact hnone

theorem voteInv_applyVoteOp (db : DB) (op : VoteOp) (hinv : VoteInv db) :
    VoteInv (applyVoteOp db op) := by
  unfold applyVoteOp voteHandler
  by_cases hex : (findTicket db op.ticketId).isSome
  · simp only [if_pos hex]
    exact voteInv_applyVoteWrite db op.user.id op.ticketId op.newId op.type hinv
  · simp only [if_neg hex]
    exact hinv

theorem filter_cons_pos' {α : Type} (p : α → Bool) (a : α) (l : List α) (h : p a = true) :
    (a :: l).filter p = a :: l.filter p :=
  List.filter_cons_of_pos h

theorem filter_cons_neg' {α : Type} (p : α → Bool) (a : α) (l : List α) (h : p a = false) :
    (a :: l).filter p = l.filter p := by
  apply List.filter_cons_of_neg
  rw [h]
  simp

/-- Filtering commutes with a map that does not change the filtered
predicate. -/
theorem filter_map_eval {α : Type} (p : α → Bool) (g : α → α)
    (hpg : ∀ a, p (g a) = p a) (l : List α) :
    (l.map g).filter p = (l.filter p).map g := by
  induction l with
  | nil => rfl
  | cons a l ih =>
      by_cases ha : p a = true
      · rw [List.map_cons, List.filter_cons_of_pos (by rw [hpg]; exact ha),
          List.filter_cons_of_pos ha, List.map_cons, ih]
      · rw [List.map_cons, List.filter_cons_of_neg (by rw [hpg]; exact ha),
          List.filter_cons_of_neg ha, ih]

/-- With the pair-uniqueness invariant, the rows matching a found pair form
exactly the singleton of the found row. -/
theorem filter_pair_eq_singleton {uid tid : String} {l : List Vote} {v : Vote}
    (hp : l.Pairwise (fun a b => ¬(a.userId = b.userId ∧ a.ticketId = b.ticketId)))
    (hf : l.find? (fun w => decide (w.userId = uid ∧ w.ticketId = tid)) = some v) :
    l.filter (fun w => decide (w.userId = uid ∧ w.ticketId = tid)) = [v] := by
  induction l with
  | nil => simp at hf
  | cons a l ih =>
      rw [List.pairwise_cons] at hp
      by_cases ha : a.userId = uid ∧ a.ticketId = tid
      · have hpa : decide (a.userId = uid ∧ a.ticketId = tid) = true := by
          simp [ha.1, ha.2]
        rw [List.find?_cons] at hf
        simp only [hpa, Option.some.injEq] at hf
        subst hf
        rw [filter_cons_pos' (fun w : Vote => decide (w.userId = uid ∧ w.ticketId = tid))
          a l hpa]
        have hrest : l.filter (fun w => decide (w.userId = uid ∧ w.ticketId = tid)) = [] := by
          rw [List.filter_eq_nil_iff]
          intro b hb
          simp only [decide_eq_true_eq]
          intro hbp
          exact hp.1 b hb ⟨ha.1.trans hbp.1.symm, ha.2.trans hbp.2.symm⟩
        rw [hrest]
      · have hpa : decide (a.userId = uid ∧ a.ticketId = tid) = false := by
          simp only [decide_eq_false_iff_not]
          exact ha
        rw [List.find?_cons] at hf
        simp only [hpa] at hf
        rw [filter_cons_neg' (fun w : Vote => decide (w.userId = uid ∧ w.ticketId = tid))
          a l hpa]
        exact ih hp.2 hf

/-- C3: for every user and ticket at most one vote row exists after any
sequence of vote requests, and a single request with the same type as the
existing vote deletes it, with the opposite type updates it in place, and
with no existing vote creates exactly one new vote. -/
theorem C3_vote_uniqueness (db : DB) (ops : List VoteOp) (hinv : VoteInv db) :
    VoteInv (applyVoteOps db ops) ∧
    ∀ (u : PublicUser) (tid newId : String) (t : VoteType),
      (findTicket db tid).isSome →
      (match findVote db u.id tid with
       | some v =>
           if v.type = t then
             votesFor (voteHandler db u tid newId t).2 u.id tid = []
           else
             votesFor (voteHandler db u tid newId t).2 u.id tid = [{ v with type := t }]
       | none =>
           votesFor (voteHandler db u tid newId t).2 u.id tid = [⟨newId, u.id, tid, t⟩]) := by
  constructor
  · unfold applyVoteOps
    induction ops generalizing db with
    | nil => exact hinv
    | cons op ops ih =>
        rw [List.foldl_cons]
        exact ih (applyVoteOp db op) (voteInv_applyVoteOp db op hinv)
  · intro u tid newId t hex
    have hvotes : (voteHandler db u tid newId t).2.votes =
        (applyVoteWrite db u.id tid newId t).votes := by
      unfold voteHandler
      rw [if_pos hex]
      rfl
    have hpw : db.votes.Pairwise
        (fun a b => ¬(a.userId = b.userId ∧ a.ticketId = b.ticketId)) := hinv
    cases hfv : findVote db u.id tid with
    | some v =>
        dsimp only
        have hfv' : db.votes.find?
            (fun w => decide (w.userId = u.id ∧ w.ticketId = tid)) = some v := hfv
        by_cases ht : v.type = t
        · rw [if_pos ht]
          unfold votesFor
          rw [hvotes, applyVoteWrite_some_del db u.id tid newId t v hfv ht]
          simp only
          rw [List.filter_filter, List.filter_eq_nil_iff]
          intro b hb
          by_cases hbp : b.userId = u.id ∧ b.ticketId = tid
          · have hbv : b = v := by
              have hsingle := filter_pair_eq_singleton hpw hfv'
              have hmem : b ∈ db.votes.filter
                  (fun w => decide (w.userId = u.id ∧ w.ticketId = tid)) :=
                List.mem_filter.2 ⟨hb, by simp [hbp.1, hbp.2]⟩
              rw [hsingle, List.mem_singleton] at hmem
              exact hmem
            subst hbv
            simp
          · simp [hbp]
        · rw [if_neg ht]
          unfold votesFor
          rw [hvotes, applyVoteWrite_some_upd db u.id tid newId t v hfv ht]
          simp only
          rw [filter_map_eval _ _
              (fun w => by by_cases h : w.id = v.id <;> simp [h]),
            filter_pair_eq_singleton hpw hfv']
          simp
    | none =>
        dsimp only
        have hfv' : db.votes.find?
            (fun w => decide (w.userId = u.id ∧ w.ticketId = tid)) = none := hfv
        unfold votesFor
        rw [hvotes, applyVoteWrite_none db u.id tid newId t hfv]
        simp only
        rw [List.filter_append]
        have h1 : db.votes.filter
            (fun w => decide (w.userId = u.id ∧ w.ticketId = tid)) = [] := by
          rw [List.filter_eq_nil_iff]
          intro b hb
          exact List.find?_eq_none.1 hfv' b hb
        rw [h1]
        simp

/-- Witness for C3 on a concrete database: a sequence of three vote requests
starting from a database satisfying the invariant. -/
theorem C3_vote_uniqueness_witness :
    VoteInv (applyVoteOps voteDB
      [⟨samplePU, "t1", "v2", VoteType.DOWN⟩, ⟨samplePU, "t1", "v3", VoteType.DOWN⟩,
       ⟨samplePU, "t1", "v4", VoteType.UP⟩]) ∧
    ∀ (u : PublicUser) (tid newId : String) (t : VoteType),
      (findTicket voteDB tid).isSome →
      (match findVote voteDB u.id tid with
       | some v =>
           if v.type = t then
             votesFor (voteHandler voteDB u tid newId t).2 u.id tid = []
           else
             votesFor (voteHandler voteDB u tid newId t).2 u.id tid = [{ v with type := t }]
       | none =>
           votesFor (voteHandler voteDB u tid newId t).2 u.id tid = [⟨newId, u.id, tid, t⟩]) :=
  C3_vote_uniqueness voteDB
    [⟨samplePU, "t1", "v2", VoteType.DOWN⟩, ⟨samplePU, "t1", "v3", VoteType.DOWN⟩,
     ⟨samplePU, "t1", "v4", VoteType.UP⟩] (by decide)

/-! ### C4 -/

/-- A demo stand-in for `bcrypt.hash`, used only to instantiate witnesses. -/
def hashDemo (p : String) : String := String.append p "-hashed"

/-- A demo stand-in for `jwt.sign`, used only to instantiate witnesses. -/
def signDemo (uid : String) : String := String.append "token-" uid

/-- The id-to-role view of the user table. -/
def userRoles (db : DB) : List (String × Role) :=
  db.users.map (fun u => (u.id, u.role))

/-- C4 counterexample: POST /api/auth/register takes the role straight from
the request body (`const { role = END_USER } = req.body`), so an
unauthenticated registration on an empty database — with no role-upgrade
request in existence and no admin involved — creates a user whose role is
ADMIN. -/
theorem C4_counterexample :
    emptyDB.roleRequests = [] ∧
    (∃ u ∈ (registerHandler emptyDB ⟨"Eve", "eve@example.com", "pw", some Role.ADMIN⟩
        hashDemo signDemo "u9" 0).2.users, u.role = Role.ADMIN) := by
  decide

/-- C4 amended: registration assigns the client-supplied role from the
request body, defaulting to END_USER when none is sent; apart from that,
no operation reachable by a non-admin changes any user's role — profile
updates, votes, ticket creation, status changes, comments, category creation
and role-request creation all preserve every user's role, and processing a
role request answers 403 for a non-admin and changes a user's role only to
the requested role of a matching request. -/
theorem C4_role_assignment (db : DB) :
    (∀ (inp : RegisterInput) (hashFn signFn : String → String) (newId : String)
       (now : Nat) (r : AuthResp) (db' : DB),
       registerHandler db inp hashFn signFn newId now = (HResult.ok 201 r, db') →
       db'.users.map User.role = db.users.map User.role ++ [inp.role.getD Role.END_USER]) ∧
    (∀ (uid : String) (inp : ProfileInput) (compareFn : String → String → Bool)
       (hashFn : String → String),
       userRoles (updateProfile db uid inp compareFn hashFn).2 = userRoles db) ∧
    (∀ (u : PublicUser) (tid newId : String) (t : VoteType),
       userRoles (voteHandler db u tid newId t).2 = userRoles db) ∧
    (∀ (u : PublicUser) (inp : TicketInput) (newId : String) (now : Nat),
       userRoles (createTicket db u inp newId now).2 = userRoles db) ∧
    (∀ (u : PublicUser) (tid statusStr : String) (now : Nat),
       userRoles (updateTicketStatus db u tid statusStr now).2 = userRoles db) ∧
    (∀ (u : PublicUser) (tid content newId : String) (now : Nat),
       userRoles (createComment db u tid content newId now).2 = userRoles db) ∧
    (∀ (u : PublicUser) (inp : CategoryInput) (newId : String),
       userRoles (createCategory db u inp newId).2 = userRoles db) ∧
    (∀ (u : PublicUser) (rr : Option Role) (reason newId : String) (now : Nat),
       userRoles (createRoleRequest db u rr reason newId now).2 = userRoles db) ∧
    (∀ (u : PublicUser) (rid s : String) (now : Nat), ¬u.role = Role.ADMIN →
       processRoleRequest db u rid s now = (HResult.err 403 "Insufficient permissions", db)) ∧
    (∀ (u : PublicUser) (rid s : String) (now : Nat) (usr : User),
       usr ∈ (processRoleRequest db u rid s now).2.users →
       usr ∈ db.users ∨ ∃ req, findRoleRequest db rid = some req ∧
         req.status = ReqStatus.PENDING ∧ usr.id = req.userId ∧
         usr.role = req.requestedRole) := by
  refine ⟨?_, ?_, ?_, ?_, ?_, ?_, ?_, ?_, ?_, ?_⟩
  · intro inp hashFn signFn newId now r db' h
    unfold registerHandler at h
    by_cases h1 : inp.name = "" ∨ inp.email = "" ∨ inp.password = ""
    · rw [if_pos h1] at h
      exact absurd (congrArg Prod.fst h) (by simp)
    · rw [if_neg h1] at h
      by_cases h2 : (findUserByEmail db inp.email).isSome
      · rw [if_pos h2] at h
        exact absurd (congrArg Prod.fst h) (by simp)
      · rw [if_neg h2] at h
        have hdb := congrArg Prod.snd h
        dsimp only at hdb
        subst hdb
        simp
  · intro uid inp compareFn hashFn
    unfold updateProfile
    repeat' split
    all_goals first
      | rfl
      | (unfold userRoles
         dsimp only
         rw [List.map_map]
         apply List.map_congr_left
         intro a _
         by_cases hw : a.id = uid <;> simp [hw])
  · intro u tid newId t
    unfold voteHandler
    split
    · have h1 : (applyTallyWrite (applyVoteWrite db u.id tid newId t) tid).users
          = db.users := users_applyVoteWrite db u.id tid newId t
      unfold userRoles
      dsimp only
      rw [h1]
    · rfl
  · intro u inp newId now
    rfl
  · intro u tid statusStr now
    unfold updateTicketStatus
    repeat' split
    all_goals rfl
  · intro u tid content newId now
    unfold createComment
    split
    all_goals rfl
  · intro u inp newId
    unfold createCategory
    split
    all_goals rfl
  · intro u rr reason newId now
    unfold createRoleRequest
    repeat' split
    all_goals rfl
  · intro u rid s now hrole
    have hfalse : requireRole [Role.ADMIN] u = false := by
      simp [requireRole, hrole]
    unfold processRoleRequest
    rw [hfalse]
    simp
  · intro u rid s now usr hmem
    unfold processRoleRequest at hmem
    by_cases hadmin : requireRole [Role.ADMIN] u
    · rw [if_pos hadmin] at hmem
      by_cases hvs : ¬(s = "APPROVED" ∨ s = "REJECTED")
      · rw [if_pos hvs] at hmem
        exact Or.inl hmem
      · rw [if_neg hvs] at hmem
        cases hreq : findRoleRequest db rid with
        | none =>
            rw [hreq] at hmem
            exact Or.inl hmem
        | some req =>
            rw [hreq] at hmem
            dsimp only at hmem
            by_cases hpend : ¬req.status = ReqStatus.PENDING
            · rw [if_pos hpend] at hmem
              exact Or.inl hmem
            · rw [if_neg hpend] at hmem
              dsimp only at hmem
              by_cases hs : s = "APPROVED"
              · rw [if_pos hs] at hmem
                dsimp only at hmem
                rcases List.mem_map.1 hmem with ⟨us, hus, husr⟩
                by_cases hid : us.id = req.userId
                · rw [if_pos hid] at husr
                  subst husr
                  exact Or.inr ⟨req, rfl, not_not.1 hpend, hid, rfl⟩
                · rw [if_neg hid] at husr
                  subst husr
                  exact Or.inl hus
              · rw [if_neg hs] at hmem
                exact Or.inl hmem
    · rw [if_neg hadmin] at hmem
      exact Or.inl hmem

/-- Witness for the amended C4 on a concrete database: a registration without
a client-supplied role yields role END_USER, and a non-admin cannot process a
role request. -/
theorem C4_role_assignment_witness :
    (registerHandler sampleDB ⟨"Dan", "dan@example.com", "pw", none⟩
        hashDemo signDemo "u4" 7).2.users.map User.role =
      sampleDB.users.map User.role ++ [(none : Option Role).getD Role.END_USER] ∧
    processRoleRequest sampleDB samplePU "r1" "APPROVED" 7 =
      (HResult.err 403 "Insufficient permissions", sampleDB) :=
  ⟨(C4_role_assignment sampleDB).1 ⟨"Dan", "dan@example.com", "pw", none⟩
      hashDemo signDemo "u4" 7
      ⟨⟨"u4", "Dan", "dan@example.com", Role.END_USER⟩, signDemo "u4"⟩
      (registerHandler sampleDB ⟨"Dan", "dan@example.com", "pw", none⟩
        hashDemo signDemo "u4" 7).2 (by decide),
   (C4_role_assignment sampleDB).2.2.2.2.2.2.2.2.1 samplePU "r1" "APPROVED" 7 (by decide)⟩

/-! ### C5 -/

/-- C5: an admin setting a PENDING request to APPROVED marks it APPROVED with
processedBy and processedAt recorded and sets the requesting user's role to
the requested role; setting it to REJECTED marks it processed and leaves
every user unchanged; a request that is not PENDING is answered with a 400
error and nothing is modified. -/
theorem C5_process_role_request (db : DB) (u : PublicUser) (rid : String) (now : Nat)
    (req : RoleUpgradeRequest)
    (hadmin : u.role = Role.ADMIN)
    (hreq : findRoleRequest db rid = some req) :
    (req.status = ReqStatus.PENDING →
       (processRoleRequest db u rid "APPROVED" now).1 =
         HResult.ok 200
           { req with
             status := ReqStatus.APPROVED
             processedAt := some now
             processedBy := some u.id } ∧
       (∀ r ∈ (processRoleRequest db u rid "APPROVED" now).2.roleRequests, r.id = rid →
          r.status = ReqStatus.APPROVED ∧ r.processedBy = some u.id ∧
          r.processedAt = some now) ∧
       (∀ usr ∈ (processRoleRequest db u rid "APPROVED" now).2.users,
          usr.id = req.userId → usr.role = req.requestedRole)) ∧
    (req.status = ReqStatus.PENDING →
       (processRoleRequest db u rid "REJECTED" now).1 =
         HResult.ok 200
           { req with
             status := ReqStatus.REJECTED
             processedAt := some now
             processedBy := some u.id } ∧
       (∀ r ∈ (processRoleRequest db u rid "REJECTED" now).2.roleRequests, r.id = rid →
          r.status = ReqStatus.REJECTED ∧ r.processedBy = some u.id ∧
          r.processedAt = some now) ∧
       (processRoleRequest db u rid "REJECTED" now).2.users = db.users) ∧
    (¬req.status = ReqStatus.PENDING →
       ∀ s : String, s = "APPROVED" ∨ s = "REJECTED" →
         processRoleRequest db u rid s now =
           (HResult.err 400 "Request already processed", db)) := by
  have hrr : requireRole [Role.ADMIN] u = true := by
    simp [requireRole, hadmin]
  have hid : req.id = rid := by
    have := List.find?_some hreq
    simpa using this
  refine ⟨?_, ?_, ?_⟩
  · intro hpend
    have hC : ¬¬req.status = ReqStatus.PENDING := fun hcon => hcon hpend
    have heq : processRoleRequest db u rid "APPROVED" now =
        (HResult.ok 200
          { req with
            status := ReqStatus.APPROVED
            processedAt := some now
            processedBy := some u.id },
         { db with
             users := db.users.map (fun us =>
               if us.id = req.userId then { us with role := req.requestedRole } else us)
             roleRequests := db.roleRequests.map (fun r =>
               if r.id = rid then
                 { r with
                   status := ReqStatus.APPROVED
                   processedAt := some now
                   processedBy := some u.id }
               else r) }) := by
      unfold processRoleRequest
      rw [if_pos hrr,
        if_neg (show ¬¬(("APPROVED" : String) = "APPROVED" ∨
          ("APPROVED" : String) = "REJECTED") by decide), hreq]
      dsimp only
      rw [if_neg hC]
      simp only [eq_self_iff_true, if_true]
      rw [if_pos hid]
    rw [heq]
    refine ⟨rfl, ?_, ?_⟩
    · intro r hr hrid
      rcases List.mem_map.1 hr with ⟨r0, hr0, hfr⟩
      by_cases h0 : r0.id = rid
      · rw [if_pos h0] at hfr
        subst hfr
        exact ⟨rfl, rfl, rfl⟩
      · rw [if_neg h0] at hfr
        subst hfr
        exact absurd hrid h0
    · intro usr husr hur
      rcases List.mem_map.1 husr with ⟨u0, hu0, hfu⟩
      by_cases h0 : u0.id = req.userId
      · rw [if_pos h0] at hfu
        subst hfu
        rfl
      · rw [if_neg h0] at hfu
        subst hfu
        exact absurd hur h0
  · intro hpend
    have hC : ¬¬req.status = ReqStatus.PENDING := fun hcon => hcon hpend
    have hne : ¬(("REJECTED" : String) = "APPROVED") := by decide
    have heq : processRoleRequest db u rid "REJECTED" now =
        (HResult.ok 200
          { req with
            status := ReqStatus.REJECTED
            processedAt := some now
            processedBy := some u.id },
         { db with
             roleRequests := db.roleRequests.map (fun r =>
               if r.id = rid then
                 { r with
                   status := ReqStatus.REJECTED
                   processedAt := some now
                   processedBy := some u.id }
               else r) }) := by
      unfold processRoleRequest
      rw [if_pos hrr,
        if_neg (show ¬¬(("REJECTED" : String) = "APPROVED" ∨
          ("REJECTED" : String) = "REJECTED") by decide), hreq]
      dsimp only
      rw [if_neg hC]
      simp only [if_neg hne]
      rw [if_pos hid]
    rw [heq]
    refine ⟨rfl, ?_, rfl⟩
    intro r hr hrid
    rcases List.mem_map.1 hr with ⟨r0, hr0, hfr⟩
    by_cases h0 : r0.id = rid
    · rw [if_pos h0] at hfr
      subst hfr
      exact ⟨rfl, rfl, rfl⟩
    · rw [if_neg h0] at hfr
      subst hfr
      exact absurd hrid h0
  · intro hpend s hs
    unfold processRoleRequest
    rw [if_pos hrr, if_neg (fun hcon => hcon hs), hreq]
    dsimp only
    rw [if_pos hpend]

/-- A database holding a pending role-upgrade request from Alice. -/
def roleReqDB : DB :=
  ⟨[sampleUserRow, sampleAdminRow], [], [], [], [],
   [⟨"r1", "u1", Role.SUPPORT_AGENT, Role.END_USER, "I want to help",
     ReqStatus.PENDING, none, none, 4⟩]⟩

/-- Witness for C5 on a concrete database. -/
theorem C5_process_role_request_witness :
    ((⟨"r1", "u1", Role.SUPPORT_AGENT, Role.END_USER, "I want to help",
        ReqStatus.PENDING, none, none, 4⟩ : RoleUpgradeRequest).status = ReqStatus.PENDING →
       (processRoleRequest roleReqDB adminPU "r1" "APPROVED" 9).1 =
         HResult.ok 200
           { (⟨"r1", "u1", Role.SUPPORT_AGENT, Role.END_USER, "I want to help",
               ReqStatus.PENDING, none, none, 4⟩ : RoleUpgradeRequest) with
             status := ReqStatus.APPROVED
             processedAt := some 9
             processedBy := some "u3" } ∧
       (∀ r ∈ (processRoleRequest roleReqDB adminPU "r1" "APPROVED" 9).2.roleRequests,
          r.id = "r1" → r.status = ReqStatus.APPROVED ∧ r.processedBy = some "u3" ∧
          r.processedAt = some 9) ∧
       (∀ usr ∈ (processRoleRequest roleReqDB adminPU "r1" "APPROVED" 9).2.users,
          usr.id = "u1" → usr.role = Role.SUPPORT_AGENT)) ∧
    ((⟨"r1", "u1", Role.SUPPORT_AGENT, Role.END_USER, "I want to help",
        ReqStatus.PENDING, none, none, 4⟩ : RoleUpgradeRequest).status = ReqStatus.PENDING →
       (processRoleRequest roleReqDB adminPU "r1" "REJECTED" 9).1 =
         HResult.ok 200
           { (⟨"r1", "u1", Role.SUPPORT_AGENT, Role.END_USER, "I want to help",
               ReqStatus.PENDING, none, none, 4⟩ : RoleUpgradeRequest) with
             status := ReqStatus.REJECTED
             processedAt := some 9
             processedBy := some "u3" } ∧
       (∀ r ∈ (processRoleRequest roleReqDB adminPU "r1" "REJECTED" 9).2.roleRequests,
          r.id = "r1" → r.status = ReqStatus.REJECTED ∧ r.processedBy = some "u3" ∧
          r.processedAt = some 9) ∧
       (processRoleRequest roleReqDB adminPU "r1" "REJECTED" 9).2.users = roleReqDB.users) ∧
    (¬(⟨"r1", "u1", Role.SUPPORT_AGENT, Role.END_USER, "I want to help",
        ReqStatus.PENDING, none, none, 4⟩ : RoleUpgradeRequest).status = ReqStatus.PENDING →
       ∀ s : String, s = "APPROVED" ∨ s = "REJECTED" →
         processRoleRequest roleReqDB adminPU "r1" s 9 =
           (HResult.err 400 "Request already processed", roleReqDB)) :=
  C5_process_role_request roleReqDB adminPU "r1" 9
    ⟨"r1", "u1", Role.SUPPORT_AGENT, Role.END_USER, "I want to help",
      ReqStatus.PENDING, none, none, 4⟩ (by decide) (by decide)

/-! ### C6 and C9 -/

theorem forall2_map_self {α : Type} {R : α → α → Prop} {f : α → α} {l : List α}
    (h : ∀ a ∈ l, R a (f a)) : List.Forall₂ R l (l.map f) := by
  induction l with
  | nil => simp
  | cons a l ih =>
      rw [List.map_cons]
      exact List.Forall₂.cons (h a (by simp)) (ih fun b hb => h b (by simp [hb]))

/-- The relation between a ticket row before and after the status update:
status is set, closedAt is stamped exactly for CLOSED, and every other field
is untouched; rows of other tickets are unchanged. -/
def StatusUpd (tid : String) (s : TicketStatus) (now : Nat) (t tq : Ticket) : Prop :=
  tq.title = t.title ∧ tq.description = t.description ∧ tq.priority = t.priority ∧
  tq.categoryId = t.categoryId ∧ tq.createdBy = t.createdBy ∧ tq.votes = t.votes ∧
  tq.id = t.id ∧
  (t.id = tid → tq.status = s ∧
    (s = TicketStatus.CLOSED → tq.closedAt = some now) ∧
    (¬s = TicketStatus.CLOSED → tq.closedAt = t.closedAt)) ∧
  (¬t.id = tid → tq = t)

/-- C6: the status endpoint accepts exactly the four statuses OPEN,
IN_PROGRESS, RESOLVED, CLOSED; any other status string is answered 400
Invalid status with the database unchanged; a successful update sets the
status, stamps closedAt exactly when the new status is CLOSED, and leaves
every other field of every ticket unchanged. -/
theorem C6_status_update (db : DB) (u : PublicUser) (tid statusStr : String) (now : Nat) :
    (∀ s : TicketStatus, parseStatus statusStr = some s →
       statusStr = "OPEN" ∨ statusStr = "IN_PROGRESS" ∨
       statusStr = "RESOLVED" ∨ statusStr = "CLOSED") ∧
    (parseStatus statusStr = none →
       updateTicketStatus db u tid statusStr now =
         (HResult.err 400 "Invalid status", db)) ∧
    (∀ (s : TicketStatus) (r : Ticket) (db' : DB), parseStatus statusStr = some s →
       updateTicketStatus db u tid statusStr now = (HResult.ok 200 r, db') →
       List.Forall₂ (StatusUpd tid s now) db.tickets db'.tickets) := by
  refine ⟨?_, ?_, ?_⟩
  · intro s h
    unfold parseStatus at h
    split at h
    · exact Or.inl rfl
    · exact Or.inr (Or.inl rfl)
    · exact Or.inr (Or.inr (Or.inl rfl))
    · exact Or.inr (Or.inr (Or.inr rfl))
    · exact absurd h (by simp)
  · intro h
    unfold updateTicketStatus
    rw [h]
  · intro s r db' hs h
    unfold updateTicketStatus at h
    rw [hs] at h
    dsimp only at h
    cases htk : findTicket db tid with
    | none =>
        rw [htk] at h
        exact absurd (congrArg Prod.fst h) (by simp)
    | some tk =>
        rw [htk] at h
        dsimp only at h
        by_cases hcan : u.role = Role.ADMIN ∨ u.role = Role.SUPPORT_AGENT ∨
            (u.id = tk.createdBy ∧ s = TicketStatus.CLOSED ∧ 0 < commentCount db tid)
        · rw [if_pos hcan] at h
          have hdb : db' = { db with tickets := db.tickets.map (fun t =>
              if t.id = tid then
                { t with
                  status := s
                  closedAt := if s = TicketStatus.CLOSED then some now else t.closedAt }
              else t) } := by
            have := congrArg Prod.snd h
            dsimp only at this
            exact this.symm
          subst hdb
          apply forall2_map_self
          intro a _
          unfold StatusUpd
          by_cases ha : a.id = tid
          · rw [if_pos ha]
            refine ⟨rfl, rfl, rfl, rfl, rfl, rfl, rfl, ?_, fun hcon => absurd ha hcon⟩
            intro _
            refine ⟨rfl, ?_, ?_⟩
            · intro hcl
              rw [if_pos hcl]
            · intro hcl
              rw [if_neg hcl]
          · rw [if_neg ha]
            exact ⟨rfl, rfl, rfl, rfl, rfl, rfl, rfl,
              fun hcon => absurd hcon ha, fun _ => rfl⟩
        · rw [if_neg hcan] at h
          exact absurd (congrArg Prod.fst h) (by simp)

/-- Witness for C6 on a concrete database: a bogus status string is rejected
and an admin closing the sample ticket stamps closedAt. -/
theorem C6_status_update_witness :
    updateTicketStatus sampleDB adminPU "t1" "BOGUS" 9 =
      (HResult.err 400 "Invalid status", sampleDB) ∧
    List.Forall₂ (StatusUpd "t1" TicketStatus.CLOSED 9) sampleDB.tickets
      (updateTicketStatus sampleDB adminPU "t1" "CLOSED" 9).2.tickets :=
  ⟨(C6_status_update sampleDB adminPU "t1" "BOGUS" 9).2.1 (by decide),
   (C6_status_update sampleDB adminPU "t1" "CLOSED" 9).2.2 TicketStatus.CLOSED
     ({ sampleTicket with status := TicketStatus.CLOSED, closedAt := some 9 })
     (updateTicketStatus sampleDB adminPU "t1" "CLOSED" 9).2 (by decide) (by decide)⟩

/-- C9: a requester who is neither ADMIN nor SUPPORT_AGENT can change a
ticket's status exactly when they created the ticket, the requested status is
CLOSED, and the ticket has at least one comment; otherwise the request is
answered 403 with the database unchanged. -/
theorem C9_owner_close_only (db : DB) (u : PublicUser) (tid statusStr : String)
    (now : Nat) (s : TicketStatus) (tk : Ticket)
    (hadm : ¬u.role = Role.ADMIN) (hagt : ¬u.role = Role.SUPPORT_AGENT)
    (hs : parseStatus statusStr = some s)
    (htk : findTicket db tid = some tk) :
    ((u.id = tk.createdBy ∧ s = TicketStatus.CLOSED ∧ 0 < commentCount db tid) →
       ∃ r, (updateTicketStatus db u tid statusStr now).1 = HResult.ok 200 r) ∧
    (¬(u.id = tk.createdBy ∧ s = TicketStatus.CLOSED ∧ 0 < commentCount db tid) →
       updateTicketStatus db u tid statusStr now =
         (HResult.err 403 "You can only close your own tickets after receiving responses",
          db)) := by
  constructor
  · intro hcond
    unfold updateTicketStatus
    rw [hs]
    dsimp only
    rw [htk]
    dsimp only
    rw [if_pos (Or.inr (Or.inr hcond))]
    exact ⟨_, rfl⟩
  · intro hcond
    unfold updateTicketStatus
    rw [hs]
    dsimp only
    rw [htk]
    dsimp only
    rw [if_neg ?_]
    intro hcan
    rcases hcan with h | h | h
    · exact hadm h
    · exact hagt h
    · exact hcond h

/-- A database in which the sample ticket has one agent comment. -/
def commentedDB : DB :=
  ⟨[sampleUserRow, sampleAgentRow, sampleAdminRow], [sampleTicket], [],
   [⟨"k1", "t1", "u2", "Try turning it off and on", 6⟩], [], []⟩

/-- Witness for C9 on a concrete database: Alice may close her commented
ticket and may not reopen it. -/
theorem C9_owner_close_only_witness :
    ((samplePU.id = sampleTicket.createdBy ∧ TicketStatus.CLOSED = TicketStatus.CLOSED ∧
        0 < commentCount commentedDB "t1") →
       ∃ r, (updateTicketStatus commentedDB samplePU "t1" "CLOSED" 9).1 =
         HResult.ok 200 r) ∧
    (¬(samplePU.id = sampleTicket.createdBy ∧ TicketStatus.CLOSED = TicketStatus.CLOSED ∧
        0 < commentCount commentedDB "t1") →
       updateTicketStatus commentedDB samplePU "t1" "CLOSED" 9 =
         (HResult.err 403 "You can only close your own tickets after receiving responses",
          commentedDB)) :=
  C9_owner_close_only commentedDB samplePU "t1" "CLOSED" 9 TicketStatus.CLOSED
    sampleTicket (by decide) (by decide) (by decide) (by decide)

/-! ### C7 -/

/-- C7: category creation, the analytics and user-list admin endpoints, and
role-request processing all answer 403 Insufficient permissions with the
database unchanged for every authenticated requester whose role is not
ADMIN. -/
theorem C7_admin_only (db : DB) (u : PublicUser) (hrole : ¬u.role = Role.ADMIN) :
    (∀ (inp : CategoryInput) (newId : String),
       createCategory db u inp newId = (HResult.err 403 "Insufficient permissions", db)) ∧
    getAnalytics db u = (HResult.err 403 "Insufficient permissions", db) ∧
    getAdminUsers db u = (HResult.err 403 "Insufficient permissions", db) ∧
    (∀ (rid s : String) (now : Nat),
       processRoleRequest db u rid s now =
         (HResult.err 403 "Insufficient permissions", db)) := by
  have hfalse : requireRole [Role.ADMIN] u = false := by
    simp [requireRole, hrole]
  refine ⟨?_, ?_, ?_, ?_⟩
  · intro inp newId
    unfold createCategory
    rw [hfalse]
    simp
  · unfold getAnalytics
    rw [hfalse]
    simp
  · unfold getAdminUsers
    rw [hfalse]
    simp
  · intro rid s now
    unfold processRoleRequest
    rw [hfalse]
    simp

/-- Witness for C7: the support agent is turned away from all four admin
operations on a concrete database. -/
theorem C7_admin_only_witness :
    (∀ (inp : CategoryInput) (newId : String),
       createCategory sampleDB agentPU inp newId =
         (HResult.err 403 "Insufficient permissions", sampleDB)) ∧
    getAnalytics sampleDB agentPU = (HResult.err 403 "Insufficient permissions", sampleDB) ∧
    getAdminUsers sampleDB agentPU =
      (HResult.err 403 "Insufficient permissions", sampleDB) ∧
    (∀ (rid s : String) (now : Nat),
       processRoleRequest sampleDB agentPU rid s now =
         (HResult.err 403 "Insufficient permissions", sampleDB)) :=
  C7_admin_only sampleDB agentPU (by decide)

/-! ### C8 -/

theorem mem_insertLe {α : Type} {le : α → α → Bool} {a b : α} {l : List α} :
    a ∈ insertLe le b l ↔ a = b ∨ a ∈ l := by
  induction l with
  | nil => simp [insertLe]
  | cons c l ih =>
      unfold insertLe
      by_cases h : le b c
      · rw [if_pos h]
        simp
      · rw [if_neg h]
        simp only [List.mem_cons, ih]
        tauto

theorem mem_sortLe {α : Type} {le : α → α → Bool} {a : α} {l : List α} :
    a ∈ sortLe le l ↔ a ∈ l := by
  induction l with
  | nil => simp [sortLe]
  | cons b l ih =>
      unfold sortLe
      rw [mem_insertLe, List.mem_cons, ih]

theorem length_insertLe {α : Type} {le : α → α → Bool} {b : α} {l : List α} :
    (insertLe le b l).length = l.length + 1 := by
  induction l with
  | nil => rfl
  | cons c l ih =>
      unfold insertLe
      by_cases h : le b c
      · rw [if_pos h]
        rfl
      · rw [if_neg h]
        simp [ih]

theorem length_sortLe {α : Type} {le : α → α → Bool} {l : List α} :
    (sortLe le l).length = l.length := by
  induction l with
  | nil => rfl
  | cons b l ih =>
      unfold sortLe
      rw [length_insertLe, ih, List.length_cons]

/-- C8: an end user's ticket list contains only their own tickets and reading
someone else's ticket is answered 403 Access denied; a support agent or admin
lists every ticket (with no filters and a large enough page) and can read any
existing ticket. -/
theorem C8_ticket_visibility (db : DB) (u : PublicUser) :
    (u.role = Role.END_USER →
       ∀ (q : TicketQuery) (r : TicketList) (db' : DB),
         listTickets db u q = (HResult.ok 200 r, db') →
         ∀ item ∈ r.tickets, item.ticket.createdBy = u.id) ∧
    (u.role = Role.END_USER →
       ∀ (tid : String) (tk : Ticket), findTicket db tid = some tk →
         ¬tk.createdBy = u.id →
         getTicket db u tid = (HResult.err 403 "Access denied", db)) ∧
    ((u.role = Role.SUPPORT_AGENT ∨ u.role = Role.ADMIN) →
       (∀ (q : TicketQuery) (r : TicketList) (db' : DB),
          q.status = none → q.category = none → q.search = none →
          q.page = 1 → db.tickets.length ≤ q.limit →
          listTickets db u q = (HResult.ok 200 r, db') →
          ∀ tk ∈ db.tickets, ∃ item ∈ r.tickets, item.ticket = tk) ∧
       (∀ (tid : String) (tk : Ticket), findTicket db tid = some tk →
          getTicket db u tid = (HResult.ok 200 tk, db))) := by
  refine ⟨?_, ?_, fun hrole => ⟨?_, ?_⟩⟩
  · intro hrole q r db' h item hitem
    have hfst := congrArg Prod.fst h
    unfold listTickets at hfst
    dsimp only at hfst
    have hitems : r.tickets =
        (((sortLe (ticketLe q.sortBy q.sortDesc)
            (db.tickets.filter (ticketMatches u q))).drop
              ((q.page - 1) * q.limit)).take q.limit).map
          (fun t => ⟨t, commentCount db t.id, (findVote db u.id t.id).map Vote.type⟩) := by
      have := hfst.symm
      injection this with h1 h2
      rw [h2]
    rw [hitems] at hitem
    rcases List.mem_map.1 hitem with ⟨t, ht, hft⟩
    have ht2 : t ∈ sortLe (ticketLe q.sortBy q.sortDesc)
        (db.tickets.filter (ticketMatches u q)) :=
      List.drop_subset _ _ (List.take_subset _ _ ht)
    have ht3 : t ∈ db.tickets.filter (ticketMatches u q) := mem_sortLe.1 ht2
    have ht4 := (List.mem_filter.1 ht3).2
    unfold ticketMatches at ht4
    simp only [Bool.and_eq_true, Bool.or_eq_true, decide_eq_true_eq] at ht4
    have ht5 := ht4.1.1
    rw [← hft]
    dsimp only
    rcases ht5 with h5 | h5
    · exact absurd hrole h5
    · exact h5
  · intro hrole tid tk htk hown
    unfold getTicket
    rw [htk]
    dsimp only
    rw [if_pos ⟨hrole, hown⟩]
  · intro q r db' hst hcat hsearch hpage hlimit h tk htk
    have hmatch : ∀ t ∈ db.tickets, ticketMatches u q t = true := by
      intro t _
      unfold ticketMatches
      rw [hst, hcat, hsearch]
      rcases hrole with h5 | h5 <;> simp [h5]
    have hfilter : db.tickets.filter (ticketMatches u q) = db.tickets :=
      List.filter_eq_self.2 hmatch
    have hfst := congrArg Prod.fst h
    unfold listTickets at hfst
    dsimp only at hfst
    have hitems : r.tickets =
        (((sortLe (ticketLe q.sortBy q.sortDesc)
            (db.tickets.filter (ticketMatches u q))).drop
              ((q.page - 1) * q.limit)).take q.limit).map
          (fun t => ⟨t, commentCount db t.id, (findVote db u.id t.id).map Vote.type⟩) := by
      have := hfst.symm
      injection this with h1 h2
      rw [h2]
    have hsortlen : (sortLe (ticketLe q.sortBy q.sortDesc)
        (db.tickets.filter (ticketMatches u q))).length = db.tickets.length := by
      rw [length_sortLe, hfilter]
    have hdrop : (sortLe (ticketLe q.sortBy q.sortDesc)
        (db.tickets.filter (ticketMatches u q))).drop ((q.page - 1) * q.limit) =
        sortLe (ticketLe q.sortBy q.sortDesc) (db.tickets.filter (ticketMatches u q)) := by
      rw [hpage]
      simp
    have htake : ((sortLe (ticketLe q.sortBy q.sortDesc)
        (db.tickets.filter (ticketMatches u q))).drop ((q.page - 1) * q.limit)).take
          q.limit =
        sortLe (ticketLe q.sortBy q.sortDesc) (db.tickets.filter (ticketMatches u q)) := by
      rw [hdrop]
      exact List.take_of_length_le (by rw [hsortlen]; exact hlimit)
    rw [hitems, htake]
    refine ⟨⟨tk, commentCount db tk.id, (findVote db u.id tk.id).map Vote.type⟩, ?_, rfl⟩
    apply List.mem_map_of_mem
    rw [mem_sortLe, hfilter]
    exact htk
  · intro tid tk htk
    unfold getTicket
    rw [htk]
    dsimp only
    rw [if_neg ?_]
    intro hcon
    rcases hrole with h5 | h5
    · rw [h5] at hcon
      exact absurd hcon.1 (by simp)
    · rw [h5] at hcon
      exact absurd hcon.1 (by simp)

/-! ### C10 -/

/-- C10: the user object of every success response of register, login, me and
profile-update is the {id, name, email, role} projection of the stored user
row — the projection discards the password hash, so the response user object
is unchanged under any change of the stored hash. -/
theorem C10_password_never_returned (db : DB) :
    (∀ (u : User) (pw : String), toPublic { u with password := pw } = toPublic u) ∧
    (∀ (inp : RegisterInput) (hashFn signFn : String → String) (newId : String)
       (now : Nat) (r : AuthResp) (db' : DB),
       registerHandler db inp hashFn signFn newId now = (HResult.ok 201 r, db') →
       ∃ u ∈ db'.users, r.user = toPublic u) ∧
    (∀ (email password : String) (compareFn : String → String → Bool)
       (signFn : String → String) (r : AuthResp) (db' : DB),
       loginHandler db email password compareFn signFn = (HResult.ok 200 r, db') →
       ∃ u ∈ db.users, r.user = toPublic u) ∧
    (∀ (uid : String) (r : PublicUser) (db' : DB),
       meHandler db uid = (HResult.ok 200 r, db') →
       ∃ u ∈ db.users, r = toPublic u) ∧
    (∀ (uid : String) (inp : ProfileInput) (compareFn : String → String → Bool)
       (hashFn : String → String) (r : PublicUser) (db' : DB),
       updateProfile db uid inp compareFn hashFn = (HResult.ok 200 r, db') →
       ∃ u ∈ db'.users, r = toPublic u) := by
  refine ⟨?_, ?_, ?_, ?_, ?_⟩
  · intro u pw
    rfl
  · intro inp hashFn signFn newId now r db' h
    unfold registerHandler at h
    by_cases h1 : inp.name = "" ∨ inp.email = "" ∨ inp.password = ""
    · rw [if_pos h1] at h
      exact absurd (congrArg Prod.fst h) (by simp)
    · rw [if_neg h1] at h
      by_cases h2 : (findUserByEmail db inp.email).isSome
      · rw [if_pos h2] at h
        exact absurd (congrArg Prod.fst h) (by simp)
      · rw [if_neg h2] at h
        dsimp only at h
        have hfst := congrArg Prod.fst h
        have hsnd := congrArg Prod.snd h
        dsimp only at hfst hsnd
        injection hfst with hc hpayload
        subst hsnd
        refine ⟨⟨newId, inp.name, inp.email, hashFn inp.password,
          inp.role.getD Role.END_USER, now⟩, by simp, ?_⟩
        rw [← hpayload]
  · intro email password compareFn signFn r db' h
    unfold loginHandler at h
    cases hu : findUserByEmail db email with
    | none =>
        rw [hu] at h
        exact absurd (congrArg Prod.fst h) (by simp)
    | some u =>
        rw [hu] at h
        dsimp only at h
        by_cases hcmp : compareFn password u.password
        · rw [if_pos hcmp] at h
          have hfst := congrArg Prod.fst h
          dsimp only at hfst
          injection hfst with hc hpayload
          have hmem : u ∈ db.users := by
            have := List.mem_of_find?_eq_some hu
            exact this
          refine ⟨u, hmem, ?_⟩
          rw [← hpayload]
          rfl
        · rw [if_neg hcmp] at h
          exact absurd (congrArg Prod.fst h) (by simp)
  · intro uid r db' h
    unfold meHandler at h
    cases hu : findUser db uid with
    | none =>
        rw [hu] at h
        exact absurd (congrArg Prod.fst h) (by simp)
    | some u =>
        rw [hu] at h
        dsimp only at h
        have hfst := congrArg Prod.fst h
        dsimp only at hfst
        injection hfst with hc hpayload
        exact ⟨u, List.mem_of_find?_eq_some hu, hpayload.symm⟩
  · intro uid inp compareFn hashFn r db' h
    unfold updateProfile at h
    by_cases h1 : inp.name = "" ∨ inp.email = ""
    · rw [if_pos h1] at h
      exact absurd (congrArg Prod.fst h) (by simp)
    · rw [if_neg h1] at h
      by_cases h2 : (db.users.find? (fun w => decide (w.email = inp.email ∧ ¬w.id = uid))).isSome
      · rw [if_pos h2] at h
        exact absurd (congrArg Prod.fst h) (by simp)
      · rw [if_neg h2] at h
        by_cases h3 : inp.newPassword ≠ ""
        · rw [if_pos h3] at h
          by_cases h4 : inp.currentPassword = ""
          · rw [if_pos h4] at h
            exact absurd (congrArg Prod.fst h) (by simp)
          · rw [if_neg h4] at h
            cases hu : findUser db uid with
            | none =>
                rw [hu] at h
                exact absurd (congrArg Prod.fst h) (by simp)
            | some u =>
                rw [hu] at h
                dsimp only at h
                by_cases hcmp : compareFn inp.currentPassword u.password
                · rw [if_pos hcmp] at h
                  have hfst := congrArg Prod.fst h
                  have hsnd := congrArg Prod.snd h
                  dsimp only at hfst hsnd
                  injection hfst with hc hpayload
                  subst hsnd
                  refine ⟨(fun w : User =>
                    if w.id = uid then
                      { w with name := inp.name, email := inp.email,
                               password := hashFn inp.newPassword }
                    else w) u, ?_, hpayload.symm⟩
                  dsimp only
                  exact List.mem_map_of_mem _ (List.mem_of_find?_eq_some hu)
                · rw [if_neg hcmp] at h
                  exact absurd (congrArg Prod.fst h) (by simp)
        · rw [if_neg h3] at h
          cases hu : findUser db uid with
          | none =>
              rw [hu] at h
              exact absurd (congrArg Prod.fst h) (by simp)
          | some u =>
              rw [hu] at h
              dsimp only at h
              have hfst := congrArg Prod.fst h
              have hsnd := congrArg Prod.snd h
              dsimp only at hfst hsnd
              injection hfst with hc hpayload
              subst hsnd
              refine ⟨(fun w : User =>
                if w.id = uid then { w with name := inp.name, email := inp.email }
                else w) u, ?_, hpayload.symm⟩
              dsimp only
              exact List.mem_map_of_mem _ (List.mem_of_find?_eq_some hu)

end QuickDesk
